import Mathlib

/-!
Shallow embedding of the sequence-representation adapter layer:
`thinc/layers/dropout.py`, `thinc/layers/with_array2d.py` and
`thinc/layers/with_padded.py`.

Arrays are modelled as NumPy-style row-major buffers: a flat list of
rational values together with a shape.  Reshape keeps the buffer and
changes only the shape, exactly as NumPy's `reshape` does for contiguous
arrays.  The low-level array primitives living on `model.ops`
(`flatten`, `unflatten`, `list2padded`, `padded2list`) are external
collaborators that are not part of these three source files; they are
kept abstract as fields of an `Ops` record, so every theorem holds for
all implementations of those primitives.  The random source behind
`ops.get_dropout_mask` is modelled as an oracle of keep decisions
consumed one draw at a time via an explicit counter.
-/

set_option linter.unusedVariables false

/-- A NumPy-style array: a shape together with a flat row-major data
buffer of rational values. -/
structure ArrayXd where
  shape : List Nat
  data : List ℚ
  deriving DecidableEq, Repr

/-- `a.dim i` is the extent of axis `i` (0 when the axis does not exist),
mirroring `a.shape[i]` in the source. -/
def ArrayXd.dim (a : ArrayXd) (i : Nat) : Nat :=
  a.shape.getD i 0

/-- Element of a 2D array at row `i`, column `j` (row-major). -/
def idx2 (a : ArrayXd) (i j : Nat) : ℚ :=
  a.data.getD (i * a.dim 1 + j) 0

/-- Element of a 3D array at position `(i, j, k)` (row-major). -/
def idx3 (a : ArrayXd) (i j k : Nat) : ℚ :=
  a.data.getD ((i * a.dim 1 + j) * a.dim 2 + k) 0

/-- Elementwise product `X * M` of two same-shaped arrays. -/
def emul (X M : ArrayXd) : ArrayXd :=
  ⟨X.shape, List.zipWith (· * ·) X.data M.data⟩

/-- NumPy `reshape(r, c)` on a contiguous buffer: the data is untouched,
only the shape changes (used for `ops.reshape2` / `ops.reshape2f`). -/
def reshape2 (a : ArrayXd) (r c : Nat) : ArrayXd :=
  ⟨[r, c], a.data⟩

/-- NumPy `reshape(x, y, z)` on a contiguous buffer (used for
`ops.reshape3f`). -/
def reshape3f (a : ArrayXd) (x y z : Nat) : ArrayXd :=
  ⟨[x, y, z], a.data⟩

/-- NumPy `a.reshape(shape)` with an explicit shape tuple (used for
`.reshape(x_shape)` in `with_array2d._ragged_forward`). -/
def setShape (a : ArrayXd) (s : List Nat) : ArrayXd :=
  ⟨s, a.data⟩

/-- The Ragged container: a concatenated 2D payload plus per-item lengths. -/
structure Ragged where
  data : ArrayXd
  lengths : List Nat
  deriving DecidableEq, Repr

/-- The Padded container: a time-major 3D payload plus `size_at_t`,
`lengths` and `indices` metadata. -/
structure Padded where
  data : ArrayXd
  size_at_t : List Nat
  lengths : List Nat
  indices : List Nat
  deriving DecidableEq, Repr

/-- The four runtime representations dispatched on by `dropout.forward`
and `with_array2d.forward`: a plain array, a list of arrays, a Ragged or
a Padded. -/
inductive SeqData where
  | arr (a : ArrayXd)
  | list (xs : List ArrayXd)
  | ragged (r : Ragged)
  | padded (p : Padded)
  deriving DecidableEq, Repr

/-- The backward closure returned by `dropout.forward` /
`with_array2d.forward`: one typed function per representation, plus the
polymorphic identity `lambda dY: dY` of the dropout no-op branch. -/
inductive SeqBp where
  | ident
  | arr (f : ArrayXd → ArrayXd)
  | list (f : List ArrayXd → List ArrayXd)
  | ragged (f : Ragged → Ragged)
  | padded (f : Padded → Padded)

/-- Applying a backward closure to a gradient.  The source closures are
only ever defined on a gradient of the same representation as the
forward input; a mismatched representation crashes inside the closure,
modelled as `none`.  The identity closure of the no-op branch accepts
every representation. -/
def applySeqBp : SeqBp → SeqData → Option SeqData
  | .ident, dY => some dY
  | .arr f, .arr a => some (.arr (f a))
  | .list f, .list xs => some (.list (f xs))
  | .ragged f, .ragged r => some (.ragged (f r))
  | .padded f, .padded p => some (.padded (f p))
  | _, _ => none

/-- The random source: `gen c i` is the i.i.d. Bernoulli keep decision
for flat element `i` of draw number `c`. -/
structure RNG where
  gen : Nat → Nat → Bool

/-- Modelled from the spec: the mask produced by one draw of
`ops.get_dropout_mask` (an array primitive outside these source files) —
"a mask of i.i.d. Bernoulli-keep values (keep probability `1 - rate`,
scaled so expected activation magnitude is preserved) is drawn with the
shape of the numeric payload". -/
def mkMask (rng : RNG) (rate : ℚ) (c : Nat) (shape : List Nat) : ArrayXd :=
  ⟨shape, (List.range shape.prod).map fun i => if rng.gen c i then (1 - rate)⁻¹ else 0⟩

/-- Modelled from the spec: `ops.get_dropout_mask(shape, rate)` —
"random dropout-mask generation parameterized by shape and rate", which
consumes exactly one draw of the random source per call. -/
def get_dropout_mask (rng : RNG) (shape : List Nat) (rate : ℚ) (c : Nat) : ArrayXd × Nat :=
  (mkMask rng rate c shape, c + 1)

/-- The attrs of the Dropout model: `dropout_rate` and `is_enabled`. -/
structure DropoutModel where
  dropout_rate : ℚ
  is_enabled : Bool

/-- `dropout._dropout_array`: one mask shaped like `X`, output `X * mask`,
backward `dY * mask` with the same captured mask. -/
def dropout_array (rng : RNG) (rate : ℚ) (c : Nat) (X : ArrayXd) :
    ArrayXd × (ArrayXd → ArrayXd) × Nat :=
  let r := get_dropout_mask rng X.shape rate c
  (emul X r.1, fun dY => emul dY r.1, r.2)

/-- `dropout._dropout_ragged`: one mask shaped like the payload; lengths
pass through on both forward and backward. -/
def dropout_ragged (rng : RNG) (rate : ℚ) (c : Nat) (Xr : Ragged) :
    Ragged × (Ragged → Ragged) × Nat :=
  let r := get_dropout_mask rng Xr.data.shape rate c
  (⟨emul Xr.data r.1, Xr.lengths⟩,
   fun dYr => ⟨emul dYr.data r.1, dYr.lengths⟩,
   r.2)

/-- `dropout._dropout_padded`: one mask shaped like the payload;
`size_at_t`, `lengths` and `indices` pass through on both sides. -/
def dropout_padded (rng : RNG) (rate : ℚ) (c : Nat) (Xp : Padded) :
    Padded × (Padded → Padded) × Nat :=
  let r := get_dropout_mask rng Xp.data.shape rate c
  (⟨emul Xp.data r.1, Xp.size_at_t, Xp.lengths, Xp.indices⟩,
   fun dYp => ⟨emul dYp.data r.1, dYp.size_at_t, dYp.lengths, dYp.indices⟩,
   r.2)

/-- The list comprehension
`[model.ops.get_dropout_mask(X.shape, rate) for X in Xs]`: one mask per
item, drawn sequentially from the random source. -/
def drawMasks (rng : RNG) (rate : ℚ) : Nat → List ArrayXd → List ArrayXd × Nat
  | c, [] => ([], c)
  | c, X :: Xs =>
    let r := get_dropout_mask rng X.shape rate c
    let rest := drawMasks rng rate r.2 Xs
    (r.1 :: rest.1, rest.2)

/-- `dropout._dropout_lists`: one mask per list item; forward and
backward zip the payloads with the same captured masks. -/
def dropout_lists (rng : RNG) (rate : ℚ) (c : Nat) (Xs : List ArrayXd) :
    List ArrayXd × (List ArrayXd → List ArrayXd) × Nat :=
  let r := drawMasks rng rate c Xs
  (List.zipWith emul Xs r.1, fun dYs => List.zipWith emul dYs r.1, r.2)

/-- `dropout.forward`: the no-op guard (`rate == 0 or not is_enabled`,
with `is_enabled = attrs["is_enabled"] and is_train`) followed by the
`isinstance` dispatch over the four representations. -/
def dropout_forward (rng : RNG) (m : DropoutModel) (X : SeqData) (is_train : Bool)
    (c : Nat) : SeqData × SeqBp × Nat :=
  if m.dropout_rate = 0 ∨ (m.is_enabled && is_train) = false then
    (X, .ident, c)
  else
    match X with
    | .ragged Xr =>
      let r := dropout_ragged rng m.dropout_rate c Xr
      (.ragged r.1, .ragged r.2.1, r.2.2)
    | .padded Xp =>
      let r := dropout_padded rng m.dropout_rate c Xp
      (.padded r.1, .padded r.2.1, r.2.2)
    | .list Xs =>
      let r := dropout_lists rng m.dropout_rate c Xs
      (.list r.1, .list r.2.1, r.2.2)
    | .arr A =>
      let r := dropout_array rng m.dropout_rate c A
      (.arr r.1, .arr r.2.1, r.2.2)

/-- The abstract array primitives on `model.ops` used by the adapters.
They live outside these three source files and are opaque collaborators;
`flatten`/`unflatten` take the inter-item padding gap `pad` as their
first argument (the source's default is `pad=0`). -/
structure Ops where
  flatten : Nat → List ArrayXd → ArrayXd
  unflatten : Nat → ArrayXd → List Nat → List ArrayXd
  list2padded : List ArrayXd → Padded
  padded2list : Padded → List ArrayXd

/-- The type of the wrapped 2D-to-2D transform (`model.layers[0]` of
`with_array2d`): forward returns the 2D output and a backward closure. -/
abbrev Layer2dF := ArrayXd → Bool → ArrayXd × (ArrayXd → ArrayXd)

/-- The type of the wrapped Padded-to-Padded transform
(`model.layers[0]` of `with_padded`). -/
abbrev PadLayerF := Padded → Bool → Padded × (Padded → Padded)

/-- The `with_array2d` adapter model: the wrapped transform and the
`pad` attr. -/
structure WA2Model where
  inner : Layer2dF
  pad : Nat

/-- `with_array2d._ragged_forward`: the concatenated payload is fed to
the wrapped transform as-is; forward reuses the input lengths, backward
reshapes to the captured pre-transform shape `x_shape` and carries the
gradient's own lengths. -/
def wa2_ragged_forward (layer : Layer2dF) (Xr : Ragged) (is_train : Bool) :
    Ragged × (Ragged → Ragged) :=
  let r := layer Xr.data is_train
  let x_shape := Xr.data.shape
  (⟨r.1, Xr.lengths⟩,
   fun dYr => ⟨setShape (r.2 dYr.data) x_shape, dYr.lengths⟩)

/-- `with_array2d._padded_forward`: collapse `(T, B, F)` to `(T*B, F)`,
run the wrapped transform, re-expand to `(T, B, F_new)`; backward does
the same pair with the gradient's own extents; metadata passes through. -/
def wa2_padded_forward (layer : Layer2dF) (Xp : Padded) (is_train : Bool) :
    Padded × (Padded → Padded) :=
  let X := reshape2 Xp.data (Xp.data.dim 0 * Xp.data.dim 1) (Xp.data.dim 2)
  let r := layer X is_train
  let Y := reshape3f r.1 (Xp.data.dim 0) (Xp.data.dim 1) (r.1.dim 1)
  (⟨Y, Xp.size_at_t, Xp.lengths, Xp.indices⟩,
   fun dYp =>
     let dY := reshape2 dYp.data (dYp.data.dim 0 * dYp.data.dim 1) (dYp.data.dim 2)
     let dX2d := r.2 dY
     let dX := reshape3f dX2d (dYp.data.dim 0) (dYp.data.dim 1) (dX2d.dim 1)
     ⟨dX, dYp.size_at_t, dYp.lengths, dYp.indices⟩)

/-- `with_array2d._list_forward`: flatten the items with the configured
`pad` gap, run the wrapped transform once, unflatten with the recorded
lengths (`len(seq)` = first axis of each item); backward repeats the
flatten/backward/unflatten chain. -/
def wa2_list_forward (ops : Ops) (m : WA2Model) (Xs : List ArrayXd) (is_train : Bool) :
    List ArrayXd × (List ArrayXd → List ArrayXd) :=
  let lengths := Xs.map fun X => X.dim 0
  let Xf := ops.flatten m.pad Xs
  let r := m.inner Xf is_train
  (ops.unflatten m.pad r.1 lengths,
   fun dYs => ops.unflatten m.pad (r.2 (ops.flatten m.pad dYs)) lengths)

/-- `with_array2d.forward`: `isinstance` dispatch — Ragged, then Padded,
then "not a list or tuple" straight to the wrapped transform, else the
list path. -/
def wa2_forward (ops : Ops) (m : WA2Model) (Xseq : SeqData) (is_train : Bool) :
    SeqData × SeqBp :=
  match Xseq with
  | .ragged Xr =>
    let r := wa2_ragged_forward m.inner Xr is_train
    (.ragged r.1, .ragged r.2)
  | .padded Xp =>
    let r := wa2_padded_forward m.inner Xp is_train
    (.padded r.1, .padded r.2)
  | .arr A =>
    let r := m.inner A is_train
    (.arr r.1, .arr r.2)
  | .list Xs =>
    let r := wa2_list_forward ops m Xs is_train
    (.list r.1, .list r.2)

/-- `with_array2d._get_array`: the per-representation reduction of a
sample to its dense-2D payload (Ragged → payload; Padded → collapsed 2D;
plain array as-is; list → `ops.flatten` with the default `pad=0`). -/
def wa2_get_array (ops : Ops) : SeqData → ArrayXd
  | .ragged Xr => Xr.data
  | .padded Xp => reshape2 Xp.data (Xp.data.dim 0 * Xp.data.dim 1) (Xp.data.dim 2)
  | .arr A => A
  | .list Xs => ops.flatten 0 Xs

/-- The dimension table and names of the wrapped transform as observable
after `initialize`: `dims name` is `maybe_get_dim(name)`. -/
structure LayerState where
  dim_names : List String
  dims : String → Option Nat

/-- The copy loop of `with_array2d.init`:
`for dim_name in layer.dim_names: if layer.maybe_get_dim(dim_name) is
not None: model.set_dim(dim_name, value)` — `dims0` is the adapter's
table before the loop, and each resolved dimension overwrites it. -/
def copyDims : List String → (String → Option Nat) → (String → Option Nat) →
    String → Option Nat
  | [], _, dims0 => dims0
  | n :: rest, get, dims0 =>
    match get n with
    | some v => copyDims rest get (fun name => if name = n then some v else dims0 name)
    | none => copyDims rest get dims0

/-- `with_array2d.init`: reduce the optional samples to dense-2D form,
forward them to the wrapped transform's initializer (whose
post-initialization state `innerInit` returns), then copy every resolved
dimension into the adapter's own table `dims0`. -/
def wa2_init (ops : Ops) (innerInit : Option ArrayXd → Option ArrayXd → LayerState)
    (dims0 : String → Option Nat) (X Y : Option SeqData) :
    LayerState × (String → Option Nat) :=
  let st := innerInit (X.map (wa2_get_array ops)) (Y.map (wa2_get_array ops))
  (st, copyDims st.dim_names st.dims dims0)

/-- A tuple element as seen by `with_padded.forward`'s dispatch: a float
array, an integer (metadata) array, or something that is not an xp
array. -/
inductive TupElem where
  | farr (a : ArrayXd)
  | iarr (ns : List Nat)
  | other
  deriving DecidableEq, Repr

/-- `is_xp_array` on one tuple element. -/
def TupElem.isArr : TupElem → Bool
  | .other => false
  | _ => true

/-- `with_padded._is_padded_data`: a tuple of length 4 whose elements
are all xp arrays. -/
def is_padded_data (te : List TupElem) : Bool :=
  te.length = 4 && te.all TupElem.isArr

/-- `Padded(*seq)` on the 4-tuple wire form: succeeds when the four
components have the types of the Padded fields; a malformed tuple
crashes when consumed, modelled as `none`. -/
def decodePadded : List TupElem → Option Padded
  | [.farr d, .iarr s, .iarr l, .iarr i] => some ⟨d, s, l, i⟩
  | _ => none

/-- Reassembling the 4-tuple wire form from a Padded, as in
`(dXp.data, dXp.size_at_t, dXp.lengths, dXp.indices)`. -/
def encodePadded (p : Padded) : List TupElem :=
  [.farr p.data, .iarr p.size_at_t, .iarr p.lengths, .iarr p.indices]

/-- A tuple element handed to the list path: integer arrays are plain
1D arrays; a non-array element crashes inside the array primitives,
modelled as `none`. -/
def tupElemToArr : TupElem → Option ArrayXd
  | .farr a => some a
  | .iarr ns => some ⟨[ns.length], ns.map (fun n => (n : ℚ))⟩
  | .other => none

/-- The runtime representations dispatched on by `with_padded.forward`:
Padded, Ragged, a plain xp array, a list of arrays, or an arbitrary
tuple (of which only the 4-array form is the Padded wire form). -/
inductive PadIn where
  | padded (p : Padded)
  | ragged (r : Ragged)
  | arr (a : ArrayXd)
  | list (xs : List ArrayXd)
  | tup (te : List TupElem)
  deriving Repr

/-- The backward closure returned by `with_padded.forward`, one typed
function per branch. -/
inductive PadBp where
  | padded (f : Padded → Padded)
  | ragged (f : Ragged → Ragged)
  | arr (f : ArrayXd → ArrayXd)
  | list (f : List ArrayXd → List ArrayXd)
  | tup (f : List TupElem → Option (List TupElem))

/-- The branch selected by the `if`-chain of `with_padded.forward`. -/
inductive PadBranch where
  | delegate
  | raggedB
  | tupleB
  | arrayB
  | listB
  deriving DecidableEq, Repr

/-- The dispatch of `with_padded.forward`: Padded delegates, Ragged goes
to the ragged path, a 4-array tuple to the tuple path, an xp array to
the array path, and everything else (lists, but also any other tuple)
falls through to the final list branch. -/
def wp_dispatch : PadIn → PadBranch
  | .padded _ => .delegate
  | .ragged _ => .raggedB
  | .tup te => if is_padded_data te then .tupleB else .listB
  | .arr _ => .arrayB
  | .list _ => .listB

/-- `with_padded._get_padded`: conversion of any representation to
Padded.  The array branch synthesizes `size_at_t = [shape[1]] * shape[0]`,
`lengths = [shape[0]] * shape[1]` and `indices = arange(shape[1])`; a
tuple that is not padded data fails the `assert isinstance(seq, list)`. -/
def wp_get_padded (ops : Ops) : PadIn → Option Padded
  | .padded p => some p
  | .ragged r => some (ops.list2padded (ops.unflatten 0 r.data r.lengths))
  | .tup te => if is_padded_data te then decodePadded te else none
  | .arr X =>
    some ⟨X, List.replicate (X.dim 0) (X.dim 1), List.replicate (X.dim 1) (X.dim 0),
          List.range (X.dim 1)⟩
  | .list xs => some (ops.list2padded xs)

/-- `with_padded._ragged_forward`: the
unflatten → list2padded → transform → padded2list → flatten chain,
with the original lengths on the forward output and the gradient's
lengths on the backward output. -/
def wp_ragged_forward (ops : Ops) (layer : PadLayerF) (Xr : Ragged) (is_train : Bool) :
    Ragged × (Ragged → Ragged) :=
  let r := layer (ops.list2padded (ops.unflatten 0 Xr.data Xr.lengths)) is_train
  (⟨ops.flatten 0 (ops.padded2list r.1), Xr.lengths⟩,
   fun dYr =>
     ⟨ops.flatten 0 (ops.padded2list
        (r.2 (ops.list2padded (ops.unflatten 0 dYr.data dYr.lengths)))), dYr.lengths⟩)

/-- `with_padded._array_forward`: wrap the raw 3D array in a Padded with
the synthesized metadata of `_get_padded`, run the wrapped transform,
return only the payload; backward re-attaches the captured metadata and
returns only the gradient payload. -/
def wp_array_forward (layer : PadLayerF) (X : ArrayXd) (is_train : Bool) :
    ArrayXd × (ArrayXd → ArrayXd) :=
  let size_at_t := List.replicate (X.dim 0) (X.dim 1)
  let lengths := List.replicate (X.dim 1) (X.dim 0)
  let indices := List.range (X.dim 1)
  let r := layer ⟨X, size_at_t, lengths, indices⟩ is_train
  (r.1.data, fun dY => (r.2 ⟨dY, size_at_t, lengths, indices⟩).data)

/-- `with_padded._tuple_forward`: interpret the 4-tuple as the Padded
fields, run the wrapped transform, reassemble a 4-tuple; backward does
the same in reverse. -/
def wp_tuple_forward (layer : PadLayerF) (te : List TupElem) (is_train : Bool) :
    Option (List TupElem × (List TupElem → Option (List TupElem))) :=
  (decodePadded te).map fun Xp =>
    let r := layer Xp is_train
    (encodePadded r.1, fun dte => (decodePadded dte).map fun dYp => encodePadded (r.2 dYp))

/-- `with_padded._list_forward`: list2padded → transform → padded2list,
and the same pair on the gradient. -/
def wp_list_forward (ops : Ops) (layer : PadLayerF) (Xs : List ArrayXd) (is_train : Bool) :
    List ArrayXd × (List ArrayXd → List ArrayXd) :=
  let r := layer (ops.list2padded Xs) is_train
  (ops.padded2list r.1, fun dYs => ops.padded2list (r.2 (ops.list2padded dYs)))

/-- `with_padded.forward`: the full dispatch.  A tuple that is not the
4-array wire form falls through to the list branch, where its elements
are consumed by the array primitives (a non-array element crashes
there, modelled as `none`). -/
def wp_forward (ops : Ops) (layer : PadLayerF) (Xseq : PadIn) (is_train : Bool) :
    Option (PadIn × PadBp) :=
  match Xseq with
  | .padded Xp =>
    let r := layer Xp is_train
    some (.padded r.1, .padded r.2)
  | .ragged Xr =>
    let r := wp_ragged_forward ops layer Xr is_train
    some (.ragged r.1, .ragged r.2)
  | .tup te =>
    if is_padded_data te then
      (wp_tuple_forward layer te is_train).map fun r => (.tup r.1, .tup r.2)
    else
      (te.mapM tupElemToArr).map fun Xs =>
        let r := wp_list_forward ops layer Xs is_train
        (.list r.1, .list r.2)
  | .arr X =>
    let r := wp_array_forward layer X is_train
    (some (.arr r.1, .arr r.2))
  | .list Xs =>
    let r := wp_list_forward ops layer Xs is_train
    some (.list r.1, .list r.2)

/-- Concrete fixtures used by witnesses and counterexamples. -/
def rng0 : RNG := ⟨fun _ _ => true⟩

/-- A concrete 1x1 array. -/
def arr0 : ArrayXd := ⟨[1, 1], [5]⟩

/-- A wrapped 2D transform that is the identity (with identity backward). -/
def idLayer2d : Layer2dF := fun a _ => (a, fun g => g)

/-- A wrapped Padded transform that is the identity. -/
def idPadLayer : PadLayerF := fun p _ => (p, fun d => d)

/-- A trivial instantiation of the abstract array primitives, used only
to evaluate theorems at concrete inputs. -/
def noOps : Ops :=
  ⟨fun _ _ => ⟨[0, 0], []⟩, fun _ _ _ => [], fun _ => ⟨⟨[0, 0, 0], []⟩, [], [], []⟩,
   fun _ => []⟩

/-- The defaulted-`getD` of a replicated list is constant. -/
theorem getD_replicate_self {α : Type} (x : α) :
    ∀ n i, (List.replicate n x).getD i x = x := by
  intro n
  induction n with
  | zero => intro i; rfl
  | succ k ih =>
    intro i
    cases i with
    | zero => rfl
    | succ j => exact ih j

/-- The defaulted-`getD` of `List.range` is the index itself. -/
theorem getD_range_self : ∀ n i : Nat, (List.range n).getD i i = i := by
  intro n i
  rcases Nat.lt_or_ge i n with h | h
  · rw [List.getD_eq_getElem?_getD, List.getElem?_range h]
    rfl
  · rw [List.getD_eq_getElem?_getD, List.getElem?_eq_none (by simpa using h)]
    rfl

/-- `drawMasks` draws one mask per item: the final counter advances by
the list length, the mask list has one entry per item, and the `i`-th
mask is the draw numbered `c + i` with the `i`-th item's shape. -/
theorem drawMasks_spec (rng : RNG) (rate : ℚ) :
    ∀ (Xs : List ArrayXd) (c : Nat),
      (drawMasks rng rate c Xs).2 = c + Xs.length ∧
      (drawMasks rng rate c Xs).1.length = Xs.length ∧
      ∀ i, i < Xs.length →
        (drawMasks rng rate c Xs).1.getD i ⟨[], []⟩ =
          mkMask rng rate (c + i) ((Xs.getD i ⟨[], []⟩).shape) := by
  intro Xs
  induction Xs with
  | nil => intro c; exact ⟨rfl, rfl, fun i hi => absurd hi (Nat.not_lt_zero i)⟩
  | cons X rest ih =>
    intro c
    obtain ⟨hsnd, hlen, hget⟩ := ih (c + 1)
    refine ⟨?_, ?_, ?_⟩
    · show (drawMasks rng rate (c + 1) rest).2 = c + (rest.length + 1)
      rw [hsnd]; omega
    · show (drawMasks rng rate (c + 1) rest).1.length + 1 = rest.length + 1
      rw [hlen]
    · intro i hi
      cases i with
      | zero => simp [drawMasks, get_dropout_mask, List.getD]
      | succ j =>
        have hj : j < rest.length := by
          simpa [Nat.succ_lt_succ_iff] using hi
        show (drawMasks rng rate (c + 1) rest).1.getD j ⟨[], []⟩ =
          mkMask rng rate (c + (j + 1)) ((rest.getD j ⟨[], []⟩).shape)
        rw [hget j hj]
        congr 1
        omega

/-- C1: with rate in (0,1), the unit enabled and in training mode, the
Stochastic Masking Unit's forward draws exactly one mask per call (for a
list, one mask per item at consecutive draws, each shaped like its
item), returns the payload elementwise-multiplied by that mask, and the
returned backward multiplies its gradient by the very same captured
mask(s), not redrawn: the same `mkMask rng rate c _` appears in the
output and in the backward closure, and the draw counter advances by
exactly one (by the list length on the list path). -/
theorem dropout_active_mask_reuse (rng : RNG) (m : DropoutModel) (c : Nat)
    (h0 : 0 < m.dropout_rate) (h1 : m.dropout_rate < 1)
    (he : m.is_enabled = true) :
    (∀ A : ArrayXd,
      dropout_forward rng m (.arr A) true c =
        (.arr (emul A (mkMask rng m.dropout_rate c A.shape)),
         .arr (fun dY => emul dY (mkMask rng m.dropout_rate c A.shape)),
         c + 1)) ∧
    (∀ Xr : Ragged,
      dropout_forward rng m (.ragged Xr) true c =
        (.ragged ⟨emul Xr.data (mkMask rng m.dropout_rate c Xr.data.shape), Xr.lengths⟩,
         .ragged (fun dYr =>
           ⟨emul dYr.data (mkMask rng m.dropout_rate c Xr.data.shape), dYr.lengths⟩),
         c + 1)) ∧
    (∀ Xp : Padded,
      dropout_forward rng m (.padded Xp) true c =
        (.padded ⟨emul Xp.data (mkMask rng m.dropout_rate c Xp.data.shape),
           Xp.size_at_t, Xp.lengths, Xp.indices⟩,
         .padded (fun dYp =>
           ⟨emul dYp.data (mkMask rng m.dropout_rate c Xp.data.shape),
            dYp.size_at_t, dYp.lengths, dYp.indices⟩),
         c + 1)) ∧
    (∀ Xs : List ArrayXd,
      dropout_forward rng m (.list Xs) true c =
        (.list (List.zipWith emul Xs (drawMasks rng m.dropout_rate c Xs).1),
         .list (fun dYs => List.zipWith emul dYs (drawMasks rng m.dropout_rate c Xs).1),
         c + Xs.length) ∧
      (drawMasks rng m.dropout_rate c Xs).1.length = Xs.length ∧
      ∀ i, i < Xs.length →
        (drawMasks rng m.dropout_rate c Xs).1.getD i ⟨[], []⟩ =
          mkMask rng m.dropout_rate (c + i) ((Xs.getD i ⟨[], []⟩).shape)) := by
  have hne : m.dropout_rate ≠ 0 := ne_of_gt h0
  refine ⟨fun A => ?_, fun Xr => ?_, fun Xp => ?_, fun Xs => ?_⟩
  · simp [dropout_forward, hne, he, dropout_array, get_dropout_mask]
  · simp [dropout_forward, hne, he, dropout_ragged, get_dropout_mask]
  · simp [dropout_forward, hne, he, dropout_padded, get_dropout_mask]
  · obtain ⟨hsnd, hlen, hget⟩ := drawMasks_spec rng m.dropout_rate Xs c
    refine ⟨?_, hlen, hget⟩
    simp [dropout_forward, hne, he, dropout_lists, hsnd]

/-- Witness for C1 at a concrete input: rate 1/2, enabled, training, a
plain array of shape [2]. -/
theorem dropout_active_mask_reuse_witness :
    0 < (⟨1/2, true⟩ : DropoutModel).dropout_rate ∧
    dropout_forward rng0 ⟨1/2, true⟩ (.arr ⟨[2], [3, 4]⟩) true 0 =
      (.arr (emul ⟨[2], [3, 4]⟩ (mkMask rng0 (1/2) 0 [2])),
       .arr (fun dY => emul dY (mkMask rng0 (1/2) 0 [2])),
       1) :=
  ⟨by norm_num,
   (dropout_active_mask_reuse rng0 ⟨1/2, true⟩ 0 (by norm_num) (by norm_num) rfl).1
     ⟨[2], [3, 4]⟩⟩

/-- C2: if `rate == 0`, or the unit is disabled, or it is not in
training mode, the forward returns the input unchanged with the
polymorphic identity backward, which returns any gradient of any of the
four representations unchanged. -/
theorem dropout_noop_identity (rng : RNG) (m : DropoutModel) (X : SeqData)
    (is_train : Bool) (c : Nat)
    (h : m.dropout_rate = 0 ∨ m.is_enabled = false ∨ is_train = false) :
    dropout_forward rng m X is_train c = (X, .ident, c) ∧
    ∀ dY, applySeqBp (dropout_forward rng m X is_train c).2.1 dY = some dY := by
  have hg : m.dropout_rate = 0 ∨ (m.is_enabled && is_train) = false := by
    rcases h with h | h | h
    · exact Or.inl h
    · exact Or.inr (by simp [h])
    · exact Or.inr (by simp [h])
  have h1 : dropout_forward rng m X is_train c = (X, .ident, c) := by
    unfold dropout_forward
    rw [if_pos hg]
  exact ⟨h1, fun dY => by rw [h1]; rfl⟩

/-- Witness for C2 at a concrete input: rate 0 and a plain array. -/
theorem dropout_noop_identity_witness :
    dropout_forward rng0 ⟨0, true⟩ (.arr arr0) true 5 = (.arr arr0, .ident, 5) ∧
    applySeqBp (dropout_forward rng0 ⟨0, true⟩ (.arr arr0) true 5).2.1
      (.list [arr0]) = some (.list [arr0]) :=
  ⟨(dropout_noop_identity rng0 ⟨0, true⟩ (.arr arr0) true 5 (Or.inl rfl)).1,
   (dropout_noop_identity rng0 ⟨0, true⟩ (.arr arr0) true 5 (Or.inl rfl)).2
     (.list [arr0])⟩

/-- C7: for Ragged and Padded inputs under rate in (0,1) in training
mode, the forward output carries exactly the input's metadata fields
(`lengths`; resp. `size_at_t`, `lengths`, `indices`) unchanged; only
the numeric payload is replaced (by the masked payload of the
corresponding dropout branch). -/
theorem dropout_metadata_passthrough (rng : RNG) (m : DropoutModel) (c : Nat)
    (h0 : 0 < m.dropout_rate) (h1 : m.dropout_rate < 1)
    (he : m.is_enabled = true) :
    (∀ Xr : Ragged,
      (dropout_forward rng m (.ragged Xr) true c).1 =
        .ragged ⟨(dropout_ragged rng m.dropout_rate c Xr).1.data, Xr.lengths⟩) ∧
    (∀ Xp : Padded,
      (dropout_forward rng m (.padded Xp) true c).1 =
        .padded ⟨(dropout_padded rng m.dropout_rate c Xp).1.data,
                 Xp.size_at_t, Xp.lengths, Xp.indices⟩) := by
  have hne : m.dropout_rate ≠ 0 := ne_of_gt h0
  constructor
  · intro Xr
    simp [dropout_forward, hne, he, dropout_ragged]
  · intro Xp
    simp [dropout_forward, hne, he, dropout_padded]

/-- Witness for C7 at a concrete Ragged input with rate 1/2. -/
theorem dropout_metadata_passthrough_witness :
    (dropout_forward rng0 ⟨1/2, true⟩ (.ragged ⟨arr0, [1]⟩) true 0).1 =
      .ragged ⟨(dropout_ragged rng0 (1/2) 0 ⟨arr0, [1]⟩).1.data, [1]⟩ :=
  (dropout_metadata_passthrough rng0 ⟨1/2, true⟩ 0 (by norm_num) (by norm_num)
    rfl).1 ⟨arr0, [1]⟩

/-- Concrete Ragged input with one item of length 1. -/
def xr0 : Ragged := ⟨⟨[1, 1], [5]⟩, [1]⟩

/-- A gradient whose lengths `[2]` deliberately differ from `xr0`'s
lengths `[1]`. -/
def dyr0 : Ragged := ⟨⟨[1, 1], [7]⟩, [2]⟩

/-- C3 counterexample: the backward of the Dense-2D Adapter's ragged
path does not return the original input's lengths — fed a gradient
carrying lengths `[2]` over an input with lengths `[1]`, it returns
lengths `[2]`. -/
theorem wa2_ragged_backward_lengths_counterexample :
    ((wa2_ragged_forward idLayer2d xr0 true).2 dyr0).lengths ≠ xr0.lengths := by
  decide

/-- C3 (amended): forward returns a Ragged with the input's lengths and
the wrapped transform's 2D output on the concatenated payload; backward
reshapes its result to the captured pre-transform 2D shape of the
input's payload and carries the *gradient's* lengths (hence the original
input's lengths exactly when the gradient carries the forward output's
lengths). -/
theorem wa2_ragged_forward_spec (ops : Ops) (m : WA2Model) (Xr : Ragged)
    (tr : Bool) :
    wa2_forward ops m (.ragged Xr) tr =
      (.ragged (wa2_ragged_forward m.inner Xr tr).1,
       .ragged (wa2_ragged_forward m.inner Xr tr).2) ∧
    (wa2_ragged_forward m.inner Xr tr).1 = ⟨(m.inner Xr.data tr).1, Xr.lengths⟩ ∧
    ∀ dYr,
      (wa2_ragged_forward m.inner Xr tr).2 dYr =
        ⟨setShape ((m.inner Xr.data tr).2 dYr.data) Xr.data.shape, dYr.lengths⟩ ∧
      ((wa2_ragged_forward m.inner Xr tr).2 dYr).data.shape = Xr.data.shape ∧
      (dYr.lengths = Xr.lengths →
        ((wa2_ragged_forward m.inner Xr tr).2 dYr).lengths = Xr.lengths) :=
  ⟨rfl, rfl, fun dYr => ⟨rfl, rfl, fun h => h⟩⟩

/-- Witness for C3's amended theorem: the valid-usage case, where the
gradient carries the forward output's lengths and the original lengths
are recovered. -/
theorem wa2_ragged_forward_spec_witness :
    ((wa2_ragged_forward idLayer2d xr0 true).2 ⟨⟨[1, 1], [7]⟩, [1]⟩).lengths =
      xr0.lengths :=
  ((wa2_ragged_forward_spec noOps ⟨idLayer2d, 0⟩ xr0 true).2.2
    ⟨⟨[1, 1], [7]⟩, [1]⟩).2.2 rfl

/-- C4: the Dense-2D Adapter's padded path collapses the `(T, B, F)`
payload into a `(T*B, F)` 2D array by folding the first two axes
row-major (row `t*B + b` of the collapsed array is batch item `b` at
time `t`), runs the wrapped transform, and re-expands the 2D output to
3D with the original time/batch extents and the transform's new feature
dimension, keeping `size_at_t`, `lengths` and `indices` from the input;
the backward performs the same collapse on the gradient payload, applies
the wrapped backward, and re-expands with the gradient's own time and
batch extents. -/
theorem wa2_padded_forward_spec (ops : Ops) (m : WA2Model) (Xp : Padded)
    (tr : Bool) :
    wa2_forward ops m (.padded Xp) tr =
      (.padded (wa2_padded_forward m.inner Xp tr).1,
       .padded (wa2_padded_forward m.inner Xp tr).2) ∧
    (wa2_padded_forward m.inner Xp tr).1 =
      ⟨reshape3f
         (m.inner (reshape2 Xp.data (Xp.data.dim 0 * Xp.data.dim 1) (Xp.data.dim 2)) tr).1
         (Xp.data.dim 0) (Xp.data.dim 1)
         ((m.inner (reshape2 Xp.data (Xp.data.dim 0 * Xp.data.dim 1) (Xp.data.dim 2)) tr).1.dim 1),
       Xp.size_at_t, Xp.lengths, Xp.indices⟩ ∧
    (∀ t b f,
      idx2 (reshape2 Xp.data (Xp.data.dim 0 * Xp.data.dim 1) (Xp.data.dim 2))
        (t * Xp.data.dim 1 + b) f = idx3 Xp.data t b f) ∧
    ∀ dYp,
      (wa2_padded_forward m.inner Xp tr).2 dYp =
        ⟨reshape3f
           ((m.inner (reshape2 Xp.data (Xp.data.dim 0 * Xp.data.dim 1) (Xp.data.dim 2)) tr).2
              (reshape2 dYp.data (dYp.data.dim 0 * dYp.data.dim 1) (dYp.data.dim 2)))
           (dYp.data.dim 0) (dYp.data.dim 1)
           (((m.inner (reshape2 Xp.data (Xp.data.dim 0 * Xp.data.dim 1) (Xp.data.dim 2)) tr).2
              (reshape2 dYp.data (dYp.data.dim 0 * dYp.data.dim 1) (dYp.data.dim 2))).dim 1),
         dYp.size_at_t, dYp.lengths, dYp.indices⟩ := by
  refine ⟨rfl, rfl, fun t b f => ?_, fun dYp => rfl⟩
  simp [idx2, idx3, reshape2, ArrayXd.dim, List.getD]

/-- C10: the Dense-2D Adapter's dispatch looks only at the runtime type:
any plain array — of any shape, 2D, 3D or higher — is handed to the
wrapped transform unchanged with no dimensionality check or reshape, and
the wrapped transform's backward is returned as-is. -/
theorem wa2_forward_array_passthrough (ops : Ops) (m : WA2Model) (A : ArrayXd)
    (tr : Bool) :
    wa2_forward ops m (.arr A) tr = (.arr (m.inner A tr).1, .arr (m.inner A tr).2) :=
  rfl

/-- A dimension name outside the loop's name list is never written. -/
theorem copyDims_not_mem (get : String → Option Nat) (n : String) :
    ∀ (names : List String) (dims0 : String → Option Nat),
      n ∉ names → copyDims names get dims0 n = dims0 n := by
  intro names
  induction names with
  | nil => intro dims0 _; rfl
  | cons a rest ih =>
    intro dims0 h
    have hna : n ≠ a := fun hc => h (hc ▸ List.mem_cons_self a rest)
    have hnr : n ∉ rest := fun hc => h (List.mem_cons_of_mem a hc)
    cases hget : get a with
    | none => simpa [copyDims, hget] using ih dims0 hnr
    | some v =>
      have := ih (fun name => if name = a then some v else dims0 name) hnr
      simpa [copyDims, hget, hna] using this

/-- A dimension the wrapped transform left unresolved is never copied:
the adapter's prior entry survives the loop. -/
theorem copyDims_get_none (get : String → Option Nat) (n : String)
    (hn : get n = none) :
    ∀ (names : List String) (dims0 : String → Option Nat),
      copyDims names get dims0 n = dims0 n := by
  intro names
  induction names with
  | nil => intro dims0; rfl
  | cons a rest ih =>
    intro dims0
    cases hget : get a with
    | none => simpa [copyDims, hget] using ih dims0
    | some v =>
      have hna : n ≠ a := fun hc => by rw [hc, hget] at hn; exact Option.noConfusion hn
      have := ih (fun name => if name = a then some v else dims0 name)
      simpa [copyDims, hget, hna] using this

/-- A dimension the wrapped transform resolved is copied: after the
loop the table holds the resolved value. -/
theorem copyDims_get_some (get : String → Option Nat) (n : String) (v : Nat)
    (hn : get n = some v) :
    ∀ (names : List String) (dims0 : String → Option Nat),
      n ∈ names → copyDims names get dims0 n = some v := by
  intro names
  induction names with
  | nil => intro dims0 h; exact absurd h (List.not_mem_nil n)
  | cons a rest ih =>
    intro dims0 hmem
    by_cases hr : n ∈ rest
    · cases hget : get a with
      | none => simpa [copyDims, hget] using ih dims0 hr
      | some w =>
        simpa [copyDims, hget] using
          ih (fun name => if name = a then some w else dims0 name) hr
    · have hna : n = a := by
        rcases List.mem_cons.mp hmem with h | h
        · exact h
        · exact absurd h hr
      subst hna
      rw [copyDims, hn]
      have := copyDims_not_mem get n rest
        (fun name => if name = n then some v else dims0 name) hr
      simpa using this

/-- C8: `with_array2d.init` reduces the optional samples to their
dense-2D payloads via the per-representation extraction rules and hands
them to the wrapped transform's initializer; afterwards, every dimension
name of the wrapped transform's table that it resolved to a value holds
that same value in the adapter's table, while unresolved dimensions (and
names outside the table) are not copied — the adapter's prior entries
survive. -/
theorem wa2_init_copies_resolved_dims (ops : Ops)
    (innerInit : Option ArrayXd → Option ArrayXd → LayerState)
    (dims0 : String → Option Nat) (X Y : Option SeqData) (n : String) (v : Nat) :
    (wa2_init ops innerInit dims0 X Y).1 =
      innerInit (X.map (wa2_get_array ops)) (Y.map (wa2_get_array ops)) ∧
    (n ∈ (wa2_init ops innerInit dims0 X Y).1.dim_names →
      (wa2_init ops innerInit dims0 X Y).1.dims n = some v →
      (wa2_init ops innerInit dims0 X Y).2 n = some v) ∧
    ((wa2_init ops innerInit dims0 X Y).1.dims n = none →
      (wa2_init ops innerInit dims0 X Y).2 n = dims0 n) ∧
    (n ∉ (wa2_init ops innerInit dims0 X Y).1.dim_names →
      (wa2_init ops innerInit dims0 X Y).2 n = dims0 n) := by
  refine ⟨rfl, fun hmem hsome => ?_, fun hnone => ?_, fun hnmem => ?_⟩
  · exact copyDims_get_some _ n v hsome _ dims0 hmem
  · exact copyDims_get_none _ n hnone _ dims0
  · exact copyDims_not_mem _ n _ dims0 hnmem

/-- A wrapped-transform initializer fixture resolving dimension "nO" to 5. -/
def innerInit0 : Option ArrayXd → Option ArrayXd → LayerState :=
  fun _ _ => ⟨["nO"], fun s => if s = "nO" then some 5 else none⟩

/-- Witness for C8: with the fixture initializer, the adapter's table
holds 5 at "nO" after init. -/
theorem wa2_init_copies_resolved_dims_witness :
    (wa2_init noOps innerInit0 (fun _ => none) none none).2 "nO" = some 5 :=
  (wa2_init_copies_resolved_dims noOps innerInit0 (fun _ => none) none none
    "nO" 5).2.1 (by simp [wa2_init, innerInit0]) (by simp [wa2_init, innerInit0])

/-- C5: the Time-Major Adapter's ragged path computes the wrapped
transform on `list2padded(unflatten(Xr.data, Xr.lengths))`, returns a
Ragged whose payload is `flatten(padded2list(wrapped output))` with
exactly the original lengths in their original order, and the backward
applies the same unflatten → list2padded → wrapped backward →
padded2list → flatten chain to the gradient, returning a Ragged with
the gradient's lengths — for every implementation of the array
primitives. -/
theorem wp_ragged_forward_spec (ops : Ops) (layer : PadLayerF) (Xr : Ragged)
    (tr : Bool) :
    wp_forward ops layer (.ragged Xr) tr =
      some (.ragged (wp_ragged_forward ops layer Xr tr).1,
            .ragged (wp_ragged_forward ops layer Xr tr).2) ∧
    (wp_ragged_forward ops layer Xr tr).1 =
      ⟨ops.flatten 0 (ops.padded2list
         (layer (ops.list2padded (ops.unflatten 0 Xr.data Xr.lengths)) tr).1),
       Xr.lengths⟩ ∧
    ∀ dYr,
      (wp_ragged_forward ops layer Xr tr).2 dYr =
        ⟨ops.flatten 0 (ops.padded2list
           ((layer (ops.list2padded (ops.unflatten 0 Xr.data Xr.lengths)) tr).2
              (ops.list2padded (ops.unflatten 0 dYr.data dYr.lengths)))),
         dYr.lengths⟩ :=
  ⟨rfl, rfl, fun dYr => rfl⟩

/-- C6: on a dense 3D array input of shape `(T, B, F)`, the Time-Major
Adapter wraps the array in a Padded with synthesized metadata —
`size_at_t` is the batch size `B` repeated for every one of the `T` time
steps, `lengths` assigns every one of the `B` items the full time extent
`T`, and `indices` is the identity permutation on batch positions —
returns only the wrapped transform's payload array, and the backward
attaches the same synthesized metadata to the gradient, applies the
wrapped backward, and returns only the raw gradient array. -/
theorem wp_array_forward_spec (ops : Ops) (layer : PadLayerF) (X : ArrayXd)
    (tr : Bool) :
    wp_forward ops layer (.arr X) tr =
      some (.arr (wp_array_forward layer X tr).1,
            .arr (wp_array_forward layer X tr).2) ∧
    wp_get_padded ops (.arr X) =
      some ⟨X, List.replicate (X.dim 0) (X.dim 1), List.replicate (X.dim 1) (X.dim 0),
            List.range (X.dim 1)⟩ ∧
    (wp_array_forward layer X tr).1 =
      (layer ⟨X, List.replicate (X.dim 0) (X.dim 1), List.replicate (X.dim 1) (X.dim 0),
              List.range (X.dim 1)⟩ tr).1.data ∧
    (∀ dY,
      (wp_array_forward layer X tr).2 dY =
        ((layer ⟨X, List.replicate (X.dim 0) (X.dim 1), List.replicate (X.dim 1) (X.dim 0),
                 List.range (X.dim 1)⟩ tr).2
           ⟨dY, List.replicate (X.dim 0) (X.dim 1), List.replicate (X.dim 1) (X.dim 0),
            List.range (X.dim 1)⟩).data) ∧
    (List.replicate (X.dim 0) (X.dim 1)).length = X.dim 0 ∧
    (∀ t, (List.replicate (X.dim 0) (X.dim 1)).getD t (X.dim 1) = X.dim 1) ∧
    (List.replicate (X.dim 1) (X.dim 0)).length = X.dim 1 ∧
    (∀ b, (List.replicate (X.dim 1) (X.dim 0)).getD b (X.dim 0) = X.dim 0) ∧
    (List.range (X.dim 1)).length = X.dim 1 ∧
    (∀ b, (List.range (X.dim 1)).getD b b = b) :=
  ⟨rfl, rfl, rfl, fun dY => rfl,
   List.length_replicate _ _, fun t => getD_replicate_self _ _ t,
   List.length_replicate _ _, fun b => getD_replicate_self _ _ b,
   List.length_range _, fun b => getD_range_self _ b⟩

/-- A tuple of three float arrays: not the 4-tuple wire form of Padded. -/
def te3 : List TupElem := [.farr arr0, .farr arr0, .farr arr0]

/-- C9 counterexample: a tuple whose arity is not 4 is *not* rejected at
dispatch — `with_padded.forward` selects the list branch for it and
processes it there (the call returns a result rather than surfacing an
error at the point of dispatch). -/
theorem wp_unrecognized_tuple_counterexample :
    wp_dispatch (.tup te3) = .listB ∧
    wp_forward noOps idPadLayer (.tup te3) true =
      some (.list (wp_list_forward noOps idPadLayer [arr0, arr0, arr0] true).1,
            .list (wp_list_forward noOps idPadLayer [arr0, arr0, arr0] true).2) :=
  ⟨rfl, rfl⟩

/-- C9 (amended): an input tuple that is not the 4-array wire form of
Padded is not rejected at the point of dispatch; it falls through to the
List-of-Arrays branch and is processed there (its elements being handed
to the array primitives, where a non-array element would fail
downstream). -/
theorem wp_unrecognized_tuple_falls_to_list (te : List TupElem)
    (h : is_padded_data te = false) :
    wp_dispatch (.tup te) = .listB ∧
    ∀ (ops : Ops) (layer : PadLayerF) (tr : Bool),
      wp_forward ops layer (.tup te) tr =
        (te.mapM tupElemToArr).map fun Xs =>
          (.list (wp_list_forward ops layer Xs tr).1,
           .list (wp_list_forward ops layer Xs tr).2) := by
  constructor
  · simp [wp_dispatch, h]
  · intro ops layer tr
    simp [wp_forward, h]

/-- Witness for C9's amended theorem at the concrete 3-tuple. -/
theorem wp_unrecognized_tuple_falls_to_list_witness :
    is_padded_data te3 = false ∧ wp_dispatch (.tup te3) = .listB :=
  ⟨rfl, (wp_unrecognized_tuple_falls_to_list te3 rfl).1⟩
